import Mathlib

/-!
# Verification of the oidc-provider PostgreSQL storage adapter

A shallow embedding of `src/storage_adapter.js`.  The adapter stores opaque
JSON payloads in a single `records` table with columns
`(name, id, data, expires_at)` and is accessed through Bookshelf/knex query
builders.  We model:

* the table as a list of `Record`s together with the module-level
  `upsert_count` counter (the JS module variable shared by every adapter
  instance) bundled into a `DB` state;
* timestamps as integers (`Date.now()` milliseconds);
* payloads (`data` JSONB column) as association lists from string keys to
  `Value`s; the PostgreSQL containment query
  `data @> {"uid": "<v>"}` used by `findByUid` / `findByUserCode` /
  `revokeByGrantId` matches precisely the records whose payload holds the
  string `v` under that key, which `getStr` expresses;
* `new Date().toISOString()` (an external JS builtin producing the ISO-8601
  rendering of the current instant) as the payload value `Value.vTime now`;
* the fallibility of the underlying engine's bulk delete used by the purge
  sweep as an explicit `sweepOk` parameter: when `sweepOk = false` the
  `DELETE` rejects, mirroring a storage failure, and the JS `await` turns
  that into a rejection of the whole `upsert` call.

Fallible operations return `DB × Option DBError`: the final state of the
table together with the rejection, if any (on rejection the table part
records exactly what the JS code has mutated before throwing).
-/

/-- A JSONB payload value.  Only the shapes the adapter ever inspects are
distinguished: strings (used by the `uid`, `userCode` and `grantId` fields)
and timestamps (`new Date().toISOString()` written by `consume`). -/
inductive Value where
  | vStr (s : String)
  | vTime (t : Int)
deriving DecidableEq

/-- A JSONB object: association list from string keys to values (first
binding of a key is the authoritative one, as in a JS object). -/
abbrev Payload := List (String × Value)

/-- Reading `p[k]` on a JSON object: the value bound to key `k`, if any. -/
def getField : Payload → String → Option Value
  | [], _ => none
  | (k, v) :: rest, key => if k = key then some v else getField rest key

/-- The string bound to key `k`, if the key is present with a string value.
`data @> {"<k>": "<v>"}` holds in PostgreSQL exactly when
`getStr p k = some v`. -/
def getStr (p : Payload) (k : String) : Option String :=
  match getField p k with
  | some (Value.vStr s) => some s
  | _ => none

/-- Assignment `p.k = v` in JS: rebinds key `k` to `v`, keeping every other binding. -/
def setField : Payload → String → Value → Payload
  | [], key, v => [(key, v)]
  | (k, w) :: rest, key, v =>
      if k = key then (key, v) :: rest else (k, w) :: setField rest key v

/-- One row of the `records` table: model `name` (the adapter instance's
namespace), unique `id`, JSONB `data`, nullable timestamp `expires_at`. -/
structure Record where
  name : String
  id : String
  data : Payload
  expires_at : Option Int
deriving DecidableEq

/-- Process state: the `records` table plus the module-level `upsert_count`
variable (shared by all adapter instances). -/
structure DB where
  records : List Record
  upsert_count : Nat
deriving DecidableEq

/-- Rejection kinds surfaced by the adapter's promises. -/
inductive DBError where
  | notFound
  | storageFailure
deriving DecidableEq

/-- The SQL liveness filter appearing in `find`, `findByUid` and
`findByUserCode`: `expires_at IS NULL OR expires_at > now`. -/
def isLive (now : Int) (r : Record) : Bool :=
  match r.expires_at with
  | none => true
  | some t => now < t

/-- The purge sweep's `WHERE expires_at <= now` (SQL: `NULL <= now` is not
true, so never-expiring rows are not swept). -/
def sweepExpired (now : Int) (r : Record) : Bool :=
  match r.expires_at with
  | none => false
  | some t => t ≤ now

/-- Constant `PURGE_AFTER_UPSERT_EVERY` from the source. -/
def PURGE_AFTER_UPSERT_EVERY : Nat := 10

/-- Models `purgeExpired()`: `if (++upsert_count < PURGE_AFTER_UPSERT_EVERY) return;`
then `upsert_count = 0;` and a bulk
`DELETE FROM records WHERE expires_at <= now` (no `name` filter: all
namespaces).  The counter is reset before the `await`ed delete, so it is 0
even when the delete rejects (`sweepOk = false`). -/
def purgeExpired (now : Int) (sweepOk : Bool) (db : DB) : DB × Option DBError :=
  if db.upsert_count + 1 < PURGE_AFTER_UPSERT_EVERY then
    ({ db with upsert_count := db.upsert_count + 1 }, none)
  else
    let db1 : DB := { db with upsert_count := 0 }
    if sweepOk then
      ({ db1 with records := db1.records.filter (fun r => !sweepExpired now r) },
        none)
    else
      (db1, some DBError.storageFailure)

/-- The `expires_at` attribute `upsert` puts in `update_data`:
present only when `expiresIn` is truthy, then `new Date(Date.now() +
expiresIn * 1000)`. -/
def upsertExpiry (now : Int) (expiresIn : Nat) : Option Int :=
  if expiresIn ≠ 0 then some (now + (expiresIn : Int) * 1000) else none

/-- The part of `upsert` after the awaited `purgeExpired()`:
`new Record({id}).fetch()` (lookup by id alone — no `name`, no liveness
filter); when a row exists, `record.set(update_data).save()` overwrites
`name` and `data`, and `expires_at` only when `expiresIn` is truthy (the
fetched row's old value is kept otherwise); when absent,
`new Record(update_data).save({}, {method: 'insert'})` inserts a fresh row
whose `expires_at` is `NULL` when `expiresIn` is falsy. -/
def upsertBody (name : String) (now : Int) (id : String) (payload : Payload)
    (expiresIn : Nat) (db : DB) : DB :=
  match db.records.find? (fun r => decide (r.id = id)) with
  | some r =>
      let r2 : Record :=
        { name := name, id := r.id, data := payload,
          expires_at := match upsertExpiry now expiresIn with
            | some e => some e
            | none => r.expires_at }
      { db with records := db.records.map (fun x => if x.id = id then r2 else x) }
  | none =>
      { db with records := db.records ++
          [{ name := name, id := id, data := payload,
             expires_at := upsertExpiry now expiresIn }] }

/-- Models `upsert(id, payload, expiresIn)`: awaits `purgeExpired()` first — a
rejection there rejects the whole call before any fetch or write — then
runs the fetch/save of `upsertBody`. -/
def upsert (name : String) (now : Int) (id : String) (payload : Payload)
    (expiresIn : Nat) (sweepOk : Bool) (db : DB) : DB × Option DBError :=
  match purgeExpired now sweepOk db with
  | (db1, some e) => (db1, some e)
  | (db1, none) => (upsertBody name now id payload expiresIn db1, none)

/-- Models `find(id)`: first row with `id = id AND (expires_at IS NULL OR
expires_at > now)`, returning its `data`, else `null`. -/
def find (now : Int) (id : String) (db : DB) : Option Payload :=
  (db.records.find? (fun r => decide (r.id = id) && isLive now r)).map Record.data

/-- Models `findByUid(uid)`: first row with `data @> {"uid": "<uid>"}` and the same
liveness filter as `find`, returning its `data`, else `null`. -/
def findByUid (now : Int) (uid : String) (db : DB) : Option Payload :=
  (db.records.find?
    (fun r => decide (getStr r.data "uid" = some uid) && isLive now r)).map
    Record.data

/-- Models `findByUserCode(userCode)`: first row with
`data @> {"userCode": "<userCode>"}` and the same liveness filter as `find`,
returning its `data`, else `null`. -/
def findByUserCode (now : Int) (userCode : String) (db : DB) : Option Payload :=
  (db.records.find?
    (fun r => decide (getStr r.data "userCode" = some userCode) && isLive now r)).map
    Record.data

/-- Models `consume(id)`: `new Record({id}).fetch()` (by id alone, no liveness
filter); on a missing row the JS code dereferences `null` and the promise
rejects with the record untouched — modelled as `DBError.notFound`;
otherwise `data.consumed = new Date().toISOString()` and a patch update of
the `data` column only. -/
def consume (now : Int) (id : String) (db : DB) : DB × Option DBError :=
  match db.records.find? (fun r => decide (r.id = id)) with
  | none => (db, some DBError.notFound)
  | some r =>
      let d2 := setField r.data "consumed" (Value.vTime now)
      let recs := db.records.map (fun x => if x.id = id then { x with data := d2 } else x)
      ({ db with records := recs }, none)

/-- Models `destroy(id)`: `new Record({id}).destroy({require: false})` — deletes
the row with this id when present and fulfils either way (`require: false`
suppresses the no-rows error). -/
def destroy (id : String) (db : DB) : DB × Option DBError :=
  ({ db with records := db.records.filter (fun r => !decide (r.id = id)) }, none)

/-- Models `revokeByGrantId(grantId)`: bulk delete of every row with
`data @> {"grantId": "<grantId>"}` (no liveness filter, no `name` filter),
with `require: false` so a zero-row match still fulfils. -/
def revokeByGrantId (grantId : String) (db : DB) : DB × Option DBError :=
  let recs := db.records.filter (fun r => !decide (getStr r.data "grantId" = some grantId))
  ({ db with records := recs }, none)

/-- Predicate: `id` is a unique key of the `records` table (database constraint;
two rows never share an id). -/
def uniqueIds (db : DB) : Prop :=
  ∀ r1 ∈ db.records, ∀ r2 ∈ db.records, r1.id = r2.id → r1 = r2

instance (db : DB) : Decidable (uniqueIds db) := by
  unfold uniqueIds; infer_instance

/-- The record's `expires_at` is a timestamp strictly in the past. -/
def expiredPast (now : Int) (r : Record) : Prop :=
  ∃ t, r.expires_at = some t ∧ t < now

/-! ## Generic lemmas about first-match lookup -/

theorem find?_eq_some_of_unique {α : Type} (p : α → Bool) (a : α) :
    ∀ l : List α, a ∈ l → p a = true → (∀ b ∈ l, p b = true → b = a) →
      l.find? p = some a := by
  intro l
  induction l with
  | nil => intro h; cases h
  | cons x xs ih =>
      intro hmem hpa huniq
      by_cases hx : p x = true
      · have hxa : x = a := huniq x (List.mem_cons_self x xs) hx
        rw [List.find?_cons_of_pos _ hx, hxa]
      · have hpx : p x = false := by
          cases hpxv : p x with
          | true => exact absurd hpxv hx
          | false => rfl
        have hxa : x ≠ a := fun h => hx (h ▸ hpa)
        have hmem2 : a ∈ xs := by
          cases hmem with
          | head => exact absurd rfl hxa
          | tail _ h => exact h
        rw [List.find?_cons_of_neg _ (by simp [hpx])]
        exact ih hmem2 hpa (fun b hb hpb => huniq b (List.mem_cons_of_mem x hb) hpb)

theorem find?_eq_none_of_all {α : Type} (p : α → Bool) (l : List α)
    (h : ∀ b ∈ l, p b = false) : l.find? p = none :=
  List.find?_eq_none.mpr (fun x hx => by simp [h x hx])

/-! ## Lemmas about payloads -/

theorem getField_setField_same (p : Payload) (k : String) (v : Value) :
    getField (setField p k v) k = some v := by
  induction p with
  | nil => simp [setField, getField]
  | cons kv rest ih =>
      obtain ⟨k1, v1⟩ := kv
      by_cases h : k1 = k
      · simp [setField, h, getField]
      · simp [setField, h, getField, ih]

theorem getField_setField_ne (p : Payload) (k k2 : String) (v : Value)
    (h : k2 ≠ k) : getField (setField p k v) k2 = getField p k2 := by
  induction p with
  | nil =>
      simp only [setField, getField]
      rw [if_neg (fun he : k = k2 => h he.symm)]
  | cons kv rest ih =>
      obtain ⟨k1, v1⟩ := kv
      by_cases h1 : k1 = k
      · subst h1
        simp only [setField, if_pos rfl, getField]
        rw [if_neg (fun he : k1 = k2 => h he.symm),
          if_neg (fun he : k1 = k2 => h he.symm)]
      · simp only [setField, if_neg h1, getField]
        by_cases h2 : k1 = k2
        · simp [h2]
        · simp [h2, ih]

theorem setField_setField (p : Payload) (k : String) (v1 v2 : Value) :
    setField (setField p k v1) k v2 = setField p k v2 := by
  induction p with
  | nil => simp [setField]
  | cons kv rest ih =>
      obtain ⟨k1, w⟩ := kv
      by_cases h : k1 = k
      · simp [setField, h]
      · simp [setField, h, ih]

/-! ## Lemmas about liveness and sweep expiry -/

theorem isLive_ext (now : Int) {a b : Record} (h : a.expires_at = b.expires_at) :
    isLive now a = isLive now b := by
  unfold isLive; rw [h]

theorem sweepExpired_ext (now : Int) {a b : Record}
    (h : a.expires_at = b.expires_at) :
    sweepExpired now a = sweepExpired now b := by
  unfold sweepExpired; rw [h]

theorem isLive_eq_false_of_expiredPast (now : Int) (r : Record)
    (h : expiredPast now r) : isLive now r = false := by
  obtain ⟨t, ht, hlt⟩ := h
  simp only [isLive, ht, decide_eq_false_iff_not]
  omega

theorem isLive_eq_false_of_sweepExpired (now : Int) (r : Record)
    (h : sweepExpired now r = true) : isLive now r = false := by
  unfold sweepExpired at h
  cases he : r.expires_at with
  | none => rw [he] at h; simp at h
  | some t =>
      rw [he] at h
      simp only [decide_eq_true_eq] at h
      simp only [isLive, he, decide_eq_false_iff_not]
      omega

theorem sweepExpired_eq_false_of_isLive (now : Int) (r : Record)
    (h : isLive now r = true) : sweepExpired now r = false := by
  unfold isLive at h
  cases he : r.expires_at with
  | none => simp [sweepExpired, he]
  | some t =>
      rw [he] at h
      simp only [decide_eq_true_eq] at h
      simp only [sweepExpired, he, decide_eq_false_iff_not]
      omega

/-! ## Generic lemmas about the liveness-filtered first-match lookup -/

theorem live_find?_eq_some (now : Int) (keyp : Record → Bool) (r : Record)
    (l : List Record) (hmem : r ∈ l) (hk : keyp r = true)
    (hlive : isLive now r = true)
    (honly : ∀ b ∈ l, keyp b = true → b = r) :
    l.find? (fun x => keyp x && isLive now x) = some r :=
  find?_eq_some_of_unique _ r l hmem (by simp [hk, hlive])
    (fun b hb hpb => honly b hb (by simp at hpb; exact hpb.1))

theorem live_find?_eq_none (now : Int) (keyp : Record → Bool) (r : Record)
    (l : List Record) (hlive : isLive now r = false)
    (honly : ∀ b ∈ l, keyp b = true → b = r) :
    l.find? (fun x => keyp x && isLive now x) = none := by
  apply find?_eq_none_of_all
  intro b hb
  cases hkb : keyp b with
  | false => simp [hkb]
  | true =>
      have hbr : b = r := honly b hb hkb
      simp [hkb, hbr, hlive]

/-! ## Lemmas about replacing the row with a given id -/

theorem map_replace_facts (l : List Record) (id : String) (target : Record)
    (r : Record) (hmem : r ∈ l) (hid : r.id = id) :
    target ∈ l.map (fun x => if x.id = id then target else x) ∧
    (∀ b ∈ l.map (fun x => if x.id = id then target else x),
      b ≠ target → b ∈ l ∧ b.id ≠ id) ∧
    (∀ b ∈ l, b.id ≠ id → b ∈ l.map (fun x => if x.id = id then target else x)) := by
  refine ⟨List.mem_map.mpr ⟨r, hmem, by simp [hid]⟩, ?_, ?_⟩
  · intro b hb hbt
    obtain ⟨x, hx, hxe⟩ := List.mem_map.mp hb
    by_cases hxid : x.id = id
    · rw [if_pos hxid] at hxe
      exact absurd hxe.symm hbt
    · rw [if_neg hxid] at hxe
      exact hxe ▸ ⟨hx, hxid⟩
  · intro b hb hbid
    exact List.mem_map.mpr ⟨b, hb, by simp [hbid]⟩

/-! ## Structural lemmas about upsertBody -/

theorem upsertBody_upsert_count (name : String) (now : Int) (id : String)
    (payload : Payload) (expiresIn : Nat) (db : DB) :
    (upsertBody name now id payload expiresIn db).upsert_count = db.upsert_count := by
  unfold upsertBody
  cases db.records.find? (fun r => decide (r.id = id)) <;> rfl

theorem upsertBody_preserves_other_ids (name : String) (now : Int) (id : String)
    (payload : Payload) (expiresIn : Nat) (db : DB) :
    ∀ b ∈ db.records, b.id ≠ id →
      b ∈ (upsertBody name now id payload expiresIn db).records := by
  intro b hb hbid
  unfold upsertBody
  cases db.records.find? (fun r => decide (r.id = id)) with
  | some rf => exact List.mem_map.mpr ⟨b, hb, by simp [hbid]⟩
  | none => exact List.mem_append.mpr (Or.inl hb)

theorem upsertBody_preserves_no_expired (name : String) (now : Int) (id : String)
    (payload : Payload) (expiresIn : Nat) (db : DB)
    (h : ∀ x ∈ db.records, sweepExpired now x = false) :
    ∀ b ∈ (upsertBody name now id payload expiresIn db).records,
      sweepExpired now b = false := by
  intro b hb
  unfold upsertBody at hb
  cases hf : db.records.find? (fun r => decide (r.id = id)) with
  | some rf =>
      rw [hf] at hb
      obtain ⟨x, hx, hxe⟩ := List.mem_map.mp hb
      by_cases hxid : x.id = id
      · rw [if_pos hxid] at hxe
        subst hxe
        by_cases he : expiresIn = 0
        · have hrf : rf ∈ db.records := List.mem_of_find?_eq_some hf
          calc sweepExpired now _ = sweepExpired now rf := by
                apply sweepExpired_ext
                simp [upsertExpiry, he]
            _ = false := h rf hrf
        · simp only [sweepExpired, upsertExpiry, if_pos he, decide_eq_false_iff_not]
          have h1 : (1 : Int) ≤ (expiresIn : Int) := by
            exact_mod_cast Nat.one_le_iff_ne_zero.mpr he
          omega
      · rw [if_neg hxid] at hxe
        exact hxe ▸ h x hx
  | none =>
      rw [hf] at hb
      rcases List.mem_append.mp hb with hl | hr
      · exact h b hl
      · have hb2 : b = ⟨name, id, payload, upsertExpiry now expiresIn⟩ := by
          simpa using hr
        subst hb2
        by_cases he : expiresIn = 0
        · simp [sweepExpired, upsertExpiry, he]
        · simp only [sweepExpired, upsertExpiry, if_pos he,
            decide_eq_false_iff_not]
          have h1 : (1 : Int) ≤ (expiresIn : Int) := by
            exact_mod_cast Nat.one_le_iff_ne_zero.mpr he
          omega

/-! ## C6: consume fails on absence -/

/-- C6: for every id with no stored record, `consume(id)` fails with a
not-found rejection (the state untouched), unlike `find`, which signals
not-found by returning null; for every id with a stored record,
`consume(id)` succeeds. -/
theorem consume_absent_rejects (now : Int) (id : String) (db : DB) :
    ((∀ r ∈ db.records, r.id ≠ id) →
      consume now id db = (db, some DBError.notFound)) ∧
    ((∃ r ∈ db.records, r.id = id) → (consume now id db).2 = none) := by
  constructor
  · intro h
    have hf : db.records.find? (fun r => decide (r.id = id)) = none :=
      find?_eq_none_of_all _ _ (fun b hb => by simp [h b hb])
    simp [consume, hf]
  · rintro ⟨r, hr, hid⟩
    cases hf : db.records.find? (fun r => decide (r.id = id)) with
    | none =>
        exfalso
        have h2 := List.find?_eq_none.mp hf r hr
        simp [hid] at h2
    | some rf => simp [consume, hf]

/-- Witness for C6 at concrete inputs: consuming a missing id rejects with
not-found, consuming a present id succeeds. -/
theorem consume_absent_rejects_witness :
    consume 5 "a" ⟨[], 0⟩ = (⟨[], 0⟩, some DBError.notFound) ∧
    (consume 5 "a" ⟨[⟨"S", "a", [], none⟩], 0⟩).2 = none :=
  ⟨(consume_absent_rejects 5 "a" ⟨[], 0⟩).1 (by decide),
   (consume_absent_rejects 5 "a" ⟨[⟨"S", "a", [], none⟩], 0⟩).2
     ⟨⟨"S", "a", [], none⟩, by simp, rfl⟩⟩

/-! ## C7: destroy is an idempotent delete-if-exists -/

/-- C7: `destroy(id)` deletes the record with that id if present, succeeds
without error even when absent, destroying twice succeeds both times and is
idempotent, and `find(id)` returns not-found after either call. -/
theorem destroy_idempotent (now : Int) (id : String) (db : DB) :
    (destroy id db).2 = none ∧
    (destroy id (destroy id db).1).2 = none ∧
    (destroy id (destroy id db).1).1 = (destroy id db).1 ∧
    find now id (destroy id db).1 = none ∧
    (∀ r ∈ db.records, r.id = id → r ∉ (destroy id db).1.records) ∧
    (∀ r ∈ db.records, r.id ≠ id → r ∈ (destroy id db).1.records) := by
  have hrec : (destroy id db).1.records
      = db.records.filter (fun r => !decide (r.id = id)) := rfl
  refine ⟨rfl, rfl, ?_, ?_, ?_, ?_⟩
  · show ({ (destroy id db).1 with
        records := (destroy id db).1.records.filter (fun r => !decide (r.id = id)) } : DB)
      = (destroy id db).1
    rw [hrec]
    rw [List.filter_filter]
    simp only [Bool.and_self]
    rfl
  · have h : ((destroy id db).1.records.find?
        (fun r => decide (r.id = id) && isLive now r)) = none := by
      apply find?_eq_none_of_all
      intro b hb
      rw [hrec] at hb
      have hb2 := (List.mem_filter.mp hb).2
      simp at hb2
      simp [hb2]
    simp [find, h]
  · intro r hr hid
    rw [hrec]
    simp [List.mem_filter, hid]
  · intro r hr hid
    rw [hrec]
    exact List.mem_filter.mpr ⟨hr, by simp [hid]⟩

/-- Witness for C7 at concrete inputs: destroying id "a" twice from a store
holding ids "a" and "b". -/
theorem destroy_idempotent_witness :
    (destroy "a" ⟨[⟨"S", "a", [], none⟩, ⟨"S", "b", [], none⟩], 0⟩).2 = none ∧
    find 0 "a" (destroy "a" ⟨[⟨"S", "a", [], none⟩, ⟨"S", "b", [], none⟩], 0⟩).1 = none ∧
    (⟨"S", "a", [], none⟩ : Record)
      ∉ (destroy "a" ⟨[⟨"S", "a", [], none⟩, ⟨"S", "b", [], none⟩], 0⟩).1.records ∧
    (⟨"S", "b", [], none⟩ : Record)
      ∈ (destroy "a" ⟨[⟨"S", "a", [], none⟩, ⟨"S", "b", [], none⟩], 0⟩).1.records :=
  ⟨(destroy_idempotent 0 "a" ⟨[⟨"S", "a", [], none⟩, ⟨"S", "b", [], none⟩], 0⟩).1,
   (destroy_idempotent 0 "a" ⟨[⟨"S", "a", [], none⟩, ⟨"S", "b", [], none⟩], 0⟩).2.2.2.1,
   (destroy_idempotent 0 "a" ⟨[⟨"S", "a", [], none⟩, ⟨"S", "b", [], none⟩], 0⟩).2.2.2.2.1
     ⟨"S", "a", [], none⟩ (by simp) rfl,
   (destroy_idempotent 0 "a" ⟨[⟨"S", "a", [], none⟩, ⟨"S", "b", [], none⟩], 0⟩).2.2.2.2.2
     ⟨"S", "b", [], none⟩ (by simp) (by decide)⟩

/-! ## C8: bulk revocation removes exactly the matches -/

/-- C8: `revokeByGrantId(g)` deletes every record whose payload's `grantId`
field equals `g` — with no liveness filter, so expired matches too — keeps
every non-matching record (still findable when live and uniquely
identified), and fulfils silently when nothing matches. -/
theorem revokeByGrantId_exact (now : Int) (g : String) (db : DB) :
    (revokeByGrantId g db).2 = none ∧
    (∀ r ∈ db.records, getStr r.data "grantId" = some g →
      r ∉ (revokeByGrantId g db).1.records) ∧
    (∀ r ∈ db.records, getStr r.data "grantId" ≠ some g →
      r ∈ (revokeByGrantId g db).1.records) ∧
    ((∀ r ∈ db.records, getStr r.data "grantId" ≠ some g) →
      (revokeByGrantId g db).1 = db) ∧
    (∀ r ∈ db.records, getStr r.data "grantId" ≠ some g → isLive now r = true →
      (∀ b ∈ db.records, b.id = r.id → b = r) →
      find now r.id (revokeByGrantId g db).1 = some r.data) := by
  have hrec : (revokeByGrantId g db).1.records
      = db.records.filter (fun r => !decide (getStr r.data "grantId" = some g)) := rfl
  refine ⟨rfl, ?_, ?_, ?_, ?_⟩
  · intro r hr hg
    rw [hrec]
    simp [List.mem_filter, hg]
  · intro r hr hg
    rw [hrec]
    exact List.mem_filter.mpr ⟨hr, by simp [hg]⟩
  · intro h
    have h2 : db.records.filter (fun r => !decide (getStr r.data "grantId" = some g))
        = db.records :=
      List.filter_eq_self.mpr (fun r hr => by simp [h r hr])
    show ({ db with
        records := db.records.filter (fun r => !decide (getStr r.data "grantId" = some g)) } : DB)
      = db
    rw [h2]
  · intro r hr hg hlive huniq
    have hfind : ((revokeByGrantId g db).1.records.find?
        (fun x => decide (x.id = r.id) && isLive now x)) = some r := by
      rw [hrec]
      apply live_find?_eq_some now (fun x => decide (x.id = r.id)) r
      · exact List.mem_filter.mpr ⟨hr, by simp [hg]⟩
      · simp
      · exact hlive
      · intro b hb hkb
        exact huniq b (List.mem_filter.mp hb).1 (by simpa using hkb)
    simp [find, hfind]

/-- Witness for C8 at concrete inputs: revoking "g1" removes the (already
expired) g1 record, keeps the g2 record, which stays findable, and a store
with no match is left exactly as it was. -/
theorem revokeByGrantId_exact_witness :
    (revokeByGrantId "g1"
      ⟨[⟨"T", "t1", [("grantId", Value.vStr "g1")], some 10⟩,
        ⟨"T", "t2", [("grantId", Value.vStr "g2")], none⟩], 0⟩).2 = none ∧
    (⟨"T", "t1", [("grantId", Value.vStr "g1")], some 10⟩ : Record)
      ∉ (revokeByGrantId "g1"
        ⟨[⟨"T", "t1", [("grantId", Value.vStr "g1")], some 10⟩,
          ⟨"T", "t2", [("grantId", Value.vStr "g2")], none⟩], 0⟩).1.records ∧
    find 50 "t2" (revokeByGrantId "g1"
      ⟨[⟨"T", "t1", [("grantId", Value.vStr "g1")], some 10⟩,
        ⟨"T", "t2", [("grantId", Value.vStr "g2")], none⟩], 0⟩).1
      = some [("grantId", Value.vStr "g2")] ∧
    (revokeByGrantId "g1"
      ⟨[⟨"T", "t2", [("grantId", Value.vStr "g2")], none⟩], 0⟩).1
      = ⟨[⟨"T", "t2", [("grantId", Value.vStr "g2")], none⟩], 0⟩ :=
  ⟨(revokeByGrantId_exact 50 "g1"
      ⟨[⟨"T", "t1", [("grantId", Value.vStr "g1")], some 10⟩,
        ⟨"T", "t2", [("grantId", Value.vStr "g2")], none⟩], 0⟩).1,
   (revokeByGrantId_exact 50 "g1"
      ⟨[⟨"T", "t1", [("grantId", Value.vStr "g1")], some 10⟩,
        ⟨"T", "t2", [("grantId", Value.vStr "g2")], none⟩], 0⟩).2.1
      ⟨"T", "t1", [("grantId", Value.vStr "g1")], some 10⟩ (by simp) (by decide),
   (revokeByGrantId_exact 50 "g1"
      ⟨[⟨"T", "t1", [("grantId", Value.vStr "g1")], some 10⟩,
        ⟨"T", "t2", [("grantId", Value.vStr "g2")], none⟩], 0⟩).2.2.2.2
      ⟨"T", "t2", [("grantId", Value.vStr "g2")], none⟩ (by simp) (by decide)
      (by decide) (by decide),
   (revokeByGrantId_exact 50 "g1"
      ⟨[⟨"T", "t2", [("grantId", Value.vStr "g2")], none⟩], 0⟩).2.2.2.1
      (by decide)⟩

/-! ## C9: a failing purge sweep rejects the whole upsert untouched -/

/-- C9: when the sweep is due (counter at threshold) and the underlying bulk
delete fails, `upsert` rejects with that storage failure, the `records`
table is untouched (the fetch/write after the `await` is never reached),
and the failure is not swallowed. -/
theorem upsert_sweep_failure (name : String) (now : Int) (id : String)
    (payload : Payload) (expiresIn : Nat) (db : DB)
    (h : ¬ db.upsert_count + 1 < PURGE_AFTER_UPSERT_EVERY) :
    upsert name now id payload expiresIn false db
        = ({ db with upsert_count := 0 }, some DBError.storageFailure) ∧
    (upsert name now id payload expiresIn false db).1.records = db.records ∧
    (upsert name now id payload expiresIn false db).2 ≠ none := by
  have hp : purgeExpired now false db
      = ({ db with upsert_count := 0 }, some DBError.storageFailure) := by
    simp [purgeExpired, h]
  refine ⟨?_, ?_, ?_⟩ <;> simp [upsert, hp]

/-- Witness for C9 at a concrete input: the tenth upsert with a failing
sweep rejects and leaves the stored record as it was. -/
theorem upsert_sweep_failure_witness :
    upsert "S" 50 "a" [] 1 false ⟨[⟨"S", "a", [], some 10⟩], 9⟩
      = (⟨[⟨"S", "a", [], some 10⟩], 0⟩, some DBError.storageFailure) :=
  (upsert_sweep_failure "S" 50 "a" [] 1 ⟨[⟨"S", "a", [], some 10⟩], 9⟩ (by decide)).1

/-! ## C1: expiry correctness of all read paths -/

/-- C1: a stored record whose `expires_at` lies strictly in the past is
returned by none of `find`, `findByUid`, `findByUserCode` (each hypothesis
set says the record is the unique holder of the looked-up key, as the
unique-id constraint and the spec's at-most-one-secondary-match convention
provide); a stored record whose `expires_at` is null or strictly in the
future is returned, payload unchanged, by the matching read. -/
theorem read_paths_expiry (now : Int) (db : DB) (r : Record)
    (hmem : r ∈ db.records) :
    (expiredPast now r → (∀ b ∈ db.records, b.id = r.id → b = r) →
      find now r.id db = none) ∧
    (isLive now r = true → (∀ b ∈ db.records, b.id = r.id → b = r) →
      find now r.id db = some r.data) ∧
    (∀ u, getStr r.data "uid" = some u → expiredPast now r →
      (∀ b ∈ db.records, getStr b.data "uid" = some u → b = r) →
      findByUid now u db = none) ∧
    (∀ u, getStr r.data "uid" = some u → isLive now r = true →
      (∀ b ∈ db.records, getStr b.data "uid" = some u → b = r) →
      findByUid now u db = some r.data) ∧
    (∀ c, getStr r.data "userCode" = some c → expiredPast now r →
      (∀ b ∈ db.records, getStr b.data "userCode" = some c → b = r) →
      findByUserCode now c db = none) ∧
    (∀ c, getStr r.data "userCode" = some c → isLive now r = true →
      (∀ b ∈ db.records, getStr b.data "userCode" = some c → b = r) →
      findByUserCode now c db = some r.data) := by
  refine ⟨?_, ?_, ?_, ?_, ?_, ?_⟩
  · intro hexp honly
    have h := live_find?_eq_none now (fun x => decide (x.id = r.id)) r db.records
      (isLive_eq_false_of_expiredPast now r hexp)
      (fun b hb hkb => honly b hb (by simpa using hkb))
    simp [find, h]
  · intro hlive honly
    have h := live_find?_eq_some now (fun x => decide (x.id = r.id)) r db.records
      hmem (by simp) hlive (fun b hb hkb => honly b hb (by simpa using hkb))
    simp [find, h]
  · intro u hu hexp honly
    have h := live_find?_eq_none now
      (fun x => decide (getStr x.data "uid" = some u)) r db.records
      (isLive_eq_false_of_expiredPast now r hexp)
      (fun b hb hkb => honly b hb (by simpa using hkb))
    simp [findByUid, h]
  · intro u hu hlive honly
    have h := live_find?_eq_some now
      (fun x => decide (getStr x.data "uid" = some u)) r db.records
      hmem (by simp [hu]) hlive (fun b hb hkb => honly b hb (by simpa using hkb))
    simp [findByUid, h]
  · intro c hc hexp honly
    have h := live_find?_eq_none now
      (fun x => decide (getStr x.data "userCode" = some c)) r db.records
      (isLive_eq_false_of_expiredPast now r hexp)
      (fun b hb hkb => honly b hb (by simpa using hkb))
    simp [findByUserCode, h]
  · intro c hc hlive honly
    have h := live_find?_eq_some now
      (fun x => decide (getStr x.data "userCode" = some c)) r db.records
      hmem (by simp [hc]) hlive (fun b hb hkb => honly b hb (by simpa using hkb))
    simp [findByUserCode, h]

/-- Witness for C1 at concrete inputs: an expired record (expiry 10, query
time 50) is invisible to all three reads; a live record (expiry 100) is
returned unchanged by all three. -/
theorem read_paths_expiry_witness :
    find 50 "a" ⟨[⟨"S", "a", [("uid", Value.vStr "u"), ("userCode", Value.vStr "c")], some 10⟩], 0⟩ = none ∧
    findByUid 50 "u" ⟨[⟨"S", "a", [("uid", Value.vStr "u"), ("userCode", Value.vStr "c")], some 10⟩], 0⟩ = none ∧
    findByUserCode 50 "c" ⟨[⟨"S", "a", [("uid", Value.vStr "u"), ("userCode", Value.vStr "c")], some 10⟩], 0⟩ = none ∧
    find 50 "a" ⟨[⟨"S", "a", [("uid", Value.vStr "u"), ("userCode", Value.vStr "c")], some 100⟩], 0⟩
      = some [("uid", Value.vStr "u"), ("userCode", Value.vStr "c")] ∧
    findByUid 50 "u" ⟨[⟨"S", "a", [("uid", Value.vStr "u"), ("userCode", Value.vStr "c")], some 100⟩], 0⟩
      = some [("uid", Value.vStr "u"), ("userCode", Value.vStr "c")] ∧
    findByUserCode 50 "c" ⟨[⟨"S", "a", [("uid", Value.vStr "u"), ("userCode", Value.vStr "c")], some 100⟩], 0⟩
      = some [("uid", Value.vStr "u"), ("userCode", Value.vStr "c")] :=
  ⟨(read_paths_expiry 50
      ⟨[⟨"S", "a", [("uid", Value.vStr "u"), ("userCode", Value.vStr "c")], some 10⟩], 0⟩
      ⟨"S", "a", [("uid", Value.vStr "u"), ("userCode", Value.vStr "c")], some 10⟩
      (by simp)).1 ⟨10, rfl, by decide⟩ (by decide),
   (read_paths_expiry 50
      ⟨[⟨"S", "a", [("uid", Value.vStr "u"), ("userCode", Value.vStr "c")], some 10⟩], 0⟩
      ⟨"S", "a", [("uid", Value.vStr "u"), ("userCode", Value.vStr "c")], some 10⟩
      (by simp)).2.2.1 "u" (by decide) ⟨10, rfl, by decide⟩ (by decide),
   (read_paths_expiry 50
      ⟨[⟨"S", "a", [("uid", Value.vStr "u"), ("userCode", Value.vStr "c")], some 10⟩], 0⟩
      ⟨"S", "a", [("uid", Value.vStr "u"), ("userCode", Value.vStr "c")], some 10⟩
      (by simp)).2.2.2.2.1 "c" (by decide) ⟨10, rfl, by decide⟩ (by decide),
   (read_paths_expiry 50
      ⟨[⟨"S", "a", [("uid", Value.vStr "u"), ("userCode", Value.vStr "c")], some 100⟩], 0⟩
      ⟨"S", "a", [("uid", Value.vStr "u"), ("userCode", Value.vStr "c")], some 100⟩
      (by simp)).2.1 (by decide) (by decide),
   (read_paths_expiry 50
      ⟨[⟨"S", "a", [("uid", Value.vStr "u"), ("userCode", Value.vStr "c")], some 100⟩], 0⟩
      ⟨"S", "a", [("uid", Value.vStr "u"), ("userCode", Value.vStr "c")], some 100⟩
      (by simp)).2.2.2.1 "u" (by decide) (by decide) (by decide),
   (read_paths_expiry 50
      ⟨[⟨"S", "a", [("uid", Value.vStr "u"), ("userCode", Value.vStr "c")], some 100⟩], 0⟩
      ⟨"S", "a", [("uid", Value.vStr "u"), ("userCode", Value.vStr "c")], some 100⟩
      (by simp)).2.2.2.2.2 "c" (by decide) (by decide) (by decide)⟩

/-! ## C4: secondary lookup exactness -/

/-- C4: when a record is the unique holder of the looked-up secondary key
among the stored records, `findByUid(v)` returns its payload exactly when
the payload's `uid` field is the string `v` and the record passes the same
liveness filter as `find`; likewise `findByUserCode(v)` for the `userCode`
field.  String equality of the field is exact: the JSONB containment query
admits no partial or prefix matching. -/
theorem secondary_lookup_exact (now : Int) (u c : String) (db : DB)
    (r : Record) (hmem : r ∈ db.records) :
    ((∀ b ∈ db.records, getStr b.data "uid" = some u → b = r) →
      (findByUid now u db = some r.data ↔
        getStr r.data "uid" = some u ∧ isLive now r = true)) ∧
    ((∀ b ∈ db.records, getStr b.data "userCode" = some c → b = r) →
      (findByUserCode now c db = some r.data ↔
        getStr r.data "userCode" = some c ∧ isLive now r = true)) := by
  constructor
  · intro honly
    constructor
    · intro h
      unfold findByUid at h
      obtain ⟨rf, hrf, hdata⟩ := Option.map_eq_some'.mp h
      have hp := List.find?_some hrf
      simp only [Bool.and_eq_true, decide_eq_true_eq] at hp
      have hfr : rf = r := honly rf (List.mem_of_find?_eq_some hrf) hp.1
      rw [hfr] at hp
      exact hp
    · rintro ⟨hk, hlive⟩
      have h := live_find?_eq_some now
        (fun x => decide (getStr x.data "uid" = some u)) r db.records
        hmem (by simp [hk]) hlive
        (fun b hb hkb => honly b hb (by simpa using hkb))
      simp [findByUid, h]
  · intro honly
    constructor
    · intro h
      unfold findByUserCode at h
      obtain ⟨rf, hrf, hdata⟩ := Option.map_eq_some'.mp h
      have hp := List.find?_some hrf
      simp only [Bool.and_eq_true, decide_eq_true_eq] at hp
      have hfr : rf = r := honly rf (List.mem_of_find?_eq_some hrf) hp.1
      rw [hfr] at hp
      exact hp
    · rintro ⟨hk, hlive⟩
      have h := live_find?_eq_some now
        (fun x => decide (getStr x.data "userCode" = some c)) r db.records
        hmem (by simp [hk]) hlive
        (fun b hb hkb => honly b hb (by simpa using hkb))
      simp [findByUserCode, h]

/-- Witness for C4 at concrete inputs: both iffs instantiated on a live
record holding uid "u" and userCode "c". -/
theorem secondary_lookup_exact_witness :
    findByUid 50 "u" ⟨[⟨"S", "a", [("uid", Value.vStr "u"), ("userCode", Value.vStr "c")], some 100⟩], 0⟩
      = some [("uid", Value.vStr "u"), ("userCode", Value.vStr "c")] ∧
    findByUserCode 50 "c" ⟨[⟨"S", "a", [("uid", Value.vStr "u"), ("userCode", Value.vStr "c")], some 100⟩], 0⟩
      = some [("uid", Value.vStr "u"), ("userCode", Value.vStr "c")] :=
  ⟨((secondary_lookup_exact 50 "u" "c"
      ⟨[⟨"S", "a", [("uid", Value.vStr "u"), ("userCode", Value.vStr "c")], some 100⟩], 0⟩
      ⟨"S", "a", [("uid", Value.vStr "u"), ("userCode", Value.vStr "c")], some 100⟩
      (by simp)).1 (by decide)).mpr ⟨by decide, by decide⟩,
   ((secondary_lookup_exact 50 "u" "c"
      ⟨[⟨"S", "a", [("uid", Value.vStr "u"), ("userCode", Value.vStr "c")], some 100⟩], 0⟩
      ⟨"S", "a", [("uid", Value.vStr "u"), ("userCode", Value.vStr "c")], some 100⟩
      (by simp)).2 (by decide)).mpr ⟨by decide, by decide⟩⟩

/-! ## C5: consume is additive -/

/-- The row patch `consume` performs once it has fetched the record whose
payload is `d`: the row with the consumed id gets payload
`d.consumed = toISOString(now)`, every other row is untouched. -/
def consumePatch (now : Int) (id : String) (d : Payload) (x : Record) : Record :=
  if x.id = id then { x with data := setField d "consumed" (Value.vTime now) } else x

theorem consume_eq (now : Int) (id : String) (db : DB) (r : Record)
    (hmem : r ∈ db.records) (hid : r.id = id)
    (huniq : ∀ b ∈ db.records, b.id = id → b = r) :
    consume now id db
      = ({ db with records := db.records.map (consumePatch now id r.data) }, none) := by
  cases hf : db.records.find? (fun x => decide (x.id = id)) with
  | none =>
      exfalso
      have h2 := List.find?_eq_none.mp hf r hmem
      simp [hid] at h2
  | some rf =>
      have hfr : rf = r := huniq rf (List.mem_of_find?_eq_some hf)
        (by simpa using List.find?_some hf)
      simp only [consume, hf, hfr]
      rfl

/-- C5: consuming an existing record keeps the record (same id, same
namespace, same `expires_at`), only rebinds the `consumed` payload field to
the ISO-8601 rendering of the current instant, leaves every other payload
field and every other record unchanged, keeps the record findable while
live, and consuming twice merely overwrites the `consumed` timestamp. -/
theorem consume_additive (now now2 : Int) (db : DB) (r : Record)
    (hmem : r ∈ db.records)
    (huniq : ∀ b ∈ db.records, b.id = r.id → b = r) :
    (consume now r.id db).2 = none ∧
    { r with data := setField r.data "consumed" (Value.vTime now) }
      ∈ (consume now r.id db).1.records ∧
    (∀ b ∈ (consume now r.id db).1.records, b.id = r.id →
      b = { r with data := setField r.data "consumed" (Value.vTime now) }) ∧
    (∀ b ∈ db.records, b.id ≠ r.id → b ∈ (consume now r.id db).1.records) ∧
    getField (setField r.data "consumed" (Value.vTime now)) "consumed"
      = some (Value.vTime now) ∧
    (∀ k, k ≠ "consumed" →
      getField (setField r.data "consumed" (Value.vTime now)) k = getField r.data k) ∧
    (isLive now r = true →
      find now r.id (consume now r.id db).1
        = some (setField r.data "consumed" (Value.vTime now))) ∧
    (∀ b ∈ (consume now2 r.id (consume now r.id db).1).1.records, b.id = r.id →
      b = { r with data := setField r.data "consumed" (Value.vTime now2) }) := by
  have heq := consume_eq now r.id db r hmem rfl huniq
  have hc1 : (consume now r.id db).1
      = { db with records := db.records.map (consumePatch now r.id r.data) } := by
    rw [heq]
  have hmem2 : { r with data := setField r.data "consumed" (Value.vTime now) }
      ∈ (consume now r.id db).1.records := by
    rw [hc1]
    exact List.mem_map.mpr ⟨r, hmem, by simp [consumePatch]⟩
  have huniq2 : ∀ b ∈ (consume now r.id db).1.records, b.id = r.id →
      b = { r with data := setField r.data "consumed" (Value.vTime now) } := by
    rw [hc1]
    intro b hb hbid
    obtain ⟨x, hx, hxe⟩ := List.mem_map.mp hb
    by_cases hxid : x.id = r.id
    · have hxr : x = r := huniq x hx hxid
      rw [← hxe, hxr]
      simp [consumePatch]
    · rw [← hxe] at hbid ⊢
      simp only [consumePatch, if_neg hxid] at hbid ⊢
      exact absurd hbid hxid
  refine ⟨by rw [heq], hmem2, huniq2, ?_, ?_, ?_, ?_, ?_⟩
  · intro b hb hbid
    rw [hc1]
    exact List.mem_map.mpr ⟨b, hb, by simp [consumePatch, hbid]⟩
  · exact getField_setField_same r.data "consumed" (Value.vTime now)
  · intro k hk
    exact getField_setField_ne r.data "consumed" k (Value.vTime now) hk
  · intro hlive
    have hlive2 : isLive now { r with data := setField r.data "consumed" (Value.vTime now) }
        = true := by
      rw [isLive_ext now (rfl : ({ r with data := setField r.data "consumed" (Value.vTime now) } : Record).expires_at = r.expires_at)]
      exact hlive
    have h := live_find?_eq_some now (fun x => decide (x.id = r.id))
      { r with data := setField r.data "consumed" (Value.vTime now) }
      (consume now r.id db).1.records hmem2 (by simp) hlive2
      (fun b hb hkb => huniq2 b hb (by simpa using hkb))
    simp [find, h]
  · intro b hb hbid
    have heq2 := consume_eq now2 r.id (consume now r.id db).1
      { r with data := setField r.data "consumed" (Value.vTime now) }
      hmem2 rfl huniq2
    rw [heq2] at hb
    obtain ⟨x, hx, hxe⟩ := List.mem_map.mp hb
    by_cases hxid : x.id = r.id
    · have hxr := huniq2 x hx hxid
      rw [← hxe, hxr]
      simp [consumePatch, setField_setField]
    · rw [← hxe] at hbid ⊢
      simp only [consumePatch, if_neg hxid] at hbid ⊢
      exact absurd hbid hxid

/-- Witness for C5 at concrete inputs: consuming id "a" at time 20 adds the
consumed timestamp, keeps expiry 100 and the other payload field, the
record stays findable, and consuming again at time 30 just overwrites the
timestamp. -/
theorem consume_additive_witness :
    (consume 20 "a" ⟨[⟨"S", "a", [("k", Value.vStr "v")], some 100⟩], 0⟩).2 = none ∧
    (⟨"S", "a", [("k", Value.vStr "v"), ("consumed", Value.vTime 20)], some 100⟩ : Record)
      ∈ (consume 20 "a" ⟨[⟨"S", "a", [("k", Value.vStr "v")], some 100⟩], 0⟩).1.records ∧
    find 20 "a" (consume 20 "a" ⟨[⟨"S", "a", [("k", Value.vStr "v")], some 100⟩], 0⟩).1
      = some [("k", Value.vStr "v"), ("consumed", Value.vTime 20)] :=
  ⟨(consume_additive 20 30 ⟨[⟨"S", "a", [("k", Value.vStr "v")], some 100⟩], 0⟩
      ⟨"S", "a", [("k", Value.vStr "v")], some 100⟩ (by simp) (by decide)).1,
   (consume_additive 20 30 ⟨[⟨"S", "a", [("k", Value.vStr "v")], some 100⟩], 0⟩
      ⟨"S", "a", [("k", Value.vStr "v")], some 100⟩ (by simp) (by decide)).2.1,
   (consume_additive 20 30 ⟨[⟨"S", "a", [("k", Value.vStr "v")], some 100⟩], 0⟩
      ⟨"S", "a", [("k", Value.vStr "v")], some 100⟩ (by simp) (by decide)).2.2.2.2.2.2.1
      (by decide)⟩

/-! ## C3 / C10: upsert replace semantics -/

/-- The row `record.set(update_data).save()` produces in the replace branch
of `upsert`: `name` and `data` come from `update_data`, the id of the
fetched row is preserved, and `expires_at` comes from `update_data` when
present there (truthy `expiresIn`) and otherwise stays the fetched row's
old value, because `update_data` then has no `expires_at` key. -/
def savedRecord (name : String) (now : Int) (expiresIn : Nat) (old : Record)
    (payload : Payload) : Record :=
  { name := name, id := old.id, data := payload,
    expires_at := match upsertExpiry now expiresIn with
      | some e => some e
      | none => old.expires_at }

theorem savedRecord_expires_at (name : String) (now : Int) (expiresIn : Nat)
    (old : Record) (payload : Payload) :
    (savedRecord name now expiresIn old payload).expires_at
      = if expiresIn ≠ 0 then some (now + (expiresIn : Int) * 1000)
        else old.expires_at := by
  by_cases he : expiresIn = 0 <;> simp [savedRecord, upsertExpiry, he]

theorem upsertBody_replace (name : String) (now : Int) (id : String)
    (payload : Payload) (expiresIn : Nat) (db : DB) (r : Record)
    (hmem : r ∈ db.records) (hid : r.id = id)
    (huniq : ∀ b ∈ db.records, b.id = id → b = r) :
    (upsertBody name now id payload expiresIn db).records
      = db.records.map
          (fun x => if x.id = id then savedRecord name now expiresIn r payload else x) := by
  cases hf : db.records.find? (fun x => decide (x.id = id)) with
  | none =>
      exfalso
      have h2 := List.find?_eq_none.mp hf r hmem
      simp [hid] at h2
  | some rf =>
      have hfr : rf = r := huniq rf (List.mem_of_find?_eq_some hf)
        (by simpa using List.find?_some hf)
      simp only [upsertBody, hf, hfr]
      rfl

theorem upsertBody_insert (name : String) (now : Int) (id : String)
    (payload : Payload) (expiresIn : Nat) (db : DB)
    (habs : ∀ b ∈ db.records, b.id ≠ id) :
    (upsertBody name now id payload expiresIn db).records
      = db.records ++ [⟨name, id, payload, upsertExpiry now expiresIn⟩] := by
  have hf : db.records.find? (fun x => decide (x.id = id)) = none :=
    find?_eq_none_of_all _ _ (fun b hb => by simp [habs b hb])
  simp only [upsertBody, hf]

theorem upsertBody_replace_facts (name : String) (now : Int) (id : String)
    (payload : Payload) (expiresIn : Nat) (db : DB) (r : Record)
    (hmem : r ∈ db.records) (hid : r.id = id)
    (huniq : ∀ b ∈ db.records, b.id = id → b = r) :
    savedRecord name now expiresIn r payload
      ∈ (upsertBody name now id payload expiresIn db).records ∧
    (∀ b ∈ (upsertBody name now id payload expiresIn db).records, b.id = id →
      b = savedRecord name now expiresIn r payload) ∧
    (∀ b ∈ db.records, b.id ≠ id →
      b ∈ (upsertBody name now id payload expiresIn db).records) := by
  have heq := upsertBody_replace name now id payload expiresIn db r hmem hid huniq
  obtain ⟨h1, h2, h3⟩ := map_replace_facts db.records id
    (savedRecord name now expiresIn r payload) r hmem hid
  refine ⟨heq ▸ h1, ?_, ?_⟩
  · intro b hb hbid
    rw [heq] at hb
    by_cases hbt : b = savedRecord name now expiresIn r payload
    · exact hbt
    · exact absurd hbid (h2 b hb hbt).2
  · intro b hb hbid
    rw [heq]
    exact h3 b hb hbid

/-- Counterexample to C3 as stated: id "x" exists (namespace "A", expiry
100); upserting id "x" with a falsy ttl at time 50 keeps the old
`expires_at = 100` instead of storing the record with no expiry, because
`update_data` omits `expires_at` entirely when `expiresIn` is falsy. -/
theorem upsert_replace_falsy_ttl_cex :
    ((upsert "B" 50 "x" [("k", Value.vStr "new")] 0 true
        ⟨[⟨"A", "x", [("k", Value.vStr "old")], some 100⟩], 0⟩).1.records.map
        Record.expires_at = [some 100]) ∧
    ((upsert "B" 50 "x" [("k", Value.vStr "new")] 0 true
        ⟨[⟨"A", "x", [("k", Value.vStr "old")], some 100⟩], 0⟩).1.records.map
        Record.expires_at ≠ [none]) := by decide

/-- C3 amended: for `upsert(id, payload, ttlSeconds)` in a call whose purge
step does not sweep (counter below threshold): when a record with that id
exists (regardless of its namespace), it is replaced — id preserved,
namespace overwritten to the instance's, payload overwritten, and expiry
becoming `now + ttlSeconds` when `ttlSeconds` is truthy but KEPT at the
record's previous `expires_at` (not cleared) when `ttlSeconds` is
falsy/zero; when no record with that id exists, a new record is created
with this namespace, id, payload, and expiry `now + ttlSeconds` when
truthy, none otherwise. -/
theorem upsert_replace_semantics (name : String) (now : Int) (id : String)
    (payload : Payload) (expiresIn : Nat) (db : DB)
    (hns : db.upsert_count + 1 < PURGE_AFTER_UPSERT_EVERY) :
    (∀ r ∈ db.records, r.id = id → (∀ b ∈ db.records, b.id = id → b = r) →
      (upsert name now id payload expiresIn true db).2 = none ∧
      savedRecord name now expiresIn r payload
        ∈ (upsert name now id payload expiresIn true db).1.records ∧
      (savedRecord name now expiresIn r payload).id = r.id ∧
      (savedRecord name now expiresIn r payload).name = name ∧
      (savedRecord name now expiresIn r payload).data = payload ∧
      (savedRecord name now expiresIn r payload).expires_at
        = (if expiresIn ≠ 0 then some (now + (expiresIn : Int) * 1000)
           else r.expires_at) ∧
      (∀ b ∈ (upsert name now id payload expiresIn true db).1.records, b.id = id →
        b = savedRecord name now expiresIn r payload) ∧
      (∀ b ∈ db.records, b.id ≠ id →
        b ∈ (upsert name now id payload expiresIn true db).1.records)) ∧
    ((∀ r ∈ db.records, r.id ≠ id) →
      (upsert name now id payload expiresIn true db).2 = none ∧
      (upsert name now id payload expiresIn true db).1.records
        = db.records ++ [⟨name, id, payload, upsertExpiry now expiresIn⟩] ∧
      upsertExpiry now expiresIn
        = (if expiresIn ≠ 0 then some (now + (expiresIn : Int) * 1000) else none)) := by
  have hu : upsert name now id payload expiresIn true db
      = (upsertBody name now id payload expiresIn
          { db with upsert_count := db.upsert_count + 1 }, none) := by
    simp [upsert, purgeExpired, hns]
  constructor
  · intro r hr hid huniq
    obtain ⟨h1, h2, h3⟩ := upsertBody_replace_facts name now id payload expiresIn
      { db with upsert_count := db.upsert_count + 1 } r hr hid huniq
    refine ⟨by rw [hu], by rw [hu]; exact h1, rfl, rfl, rfl,
      savedRecord_expires_at name now expiresIn r payload, ?_, ?_⟩
    · intro b hb hbid
      rw [hu] at hb
      exact h2 b hb hbid
    · intro b hb hbid
      rw [hu]
      exact h3 b hb hbid
  · intro habs
    refine ⟨by rw [hu], ?_, by rw [upsertExpiry]⟩
    rw [hu]
    exact upsertBody_insert name now id payload expiresIn
      { db with upsert_count := db.upsert_count + 1 } habs

/-- Witness for the amended C3 at concrete inputs: replacing id "x" held by
namespace "A" from an instance named "B" with falsy ttl keeps expiry 100,
and upserting an absent id inserts a fresh never-expiring row. -/
theorem upsert_replace_semantics_witness :
    (⟨"B", "x", [("k", Value.vStr "new")], some 100⟩ : Record)
      ∈ (upsert "B" 50 "x" [("k", Value.vStr "new")] 0 true
          ⟨[⟨"A", "x", [("k", Value.vStr "old")], some 100⟩], 0⟩).1.records ∧
    (upsert "B" 50 "y" [("k", Value.vStr "new")] 0 true ⟨[], 0⟩).1.records
      = [⟨"B", "y", [("k", Value.vStr "new")], none⟩] :=
  ⟨((upsert_replace_semantics "B" 50 "x" [("k", Value.vStr "new")] 0
      ⟨[⟨"A", "x", [("k", Value.vStr "old")], some 100⟩], 0⟩ (by decide)).1
      ⟨"A", "x", [("k", Value.vStr "old")], some 100⟩ (by simp) rfl (by decide)).2.1,
   ((upsert_replace_semantics "B" 50 "y" [("k", Value.vStr "new")] 0
      ⟨[], 0⟩ (by decide)).2 (by simp)).2.1⟩

/-- Counterexample to C10 as stated: the record with id "x" has
`expires_at = 40`; the upsert with falsy ttl at time 50 is the tenth one,
so its purge sweep deletes the expired record first and the write then
re-creates it with NO expiry — the record does become never-expiring,
against the claim that it keeps its old expiry. -/
theorem upsert_falsy_ttl_sweep_cex :
    ((upsert "B" 50 "x" [("k", Value.vStr "new")] 0 true
        ⟨[⟨"A", "x", [("k", Value.vStr "old")], some 40⟩], 9⟩).1.records.map
        Record.expires_at = [none]) ∧
    ((upsert "B" 50 "x" [("k", Value.vStr "new")] 0 true
        ⟨[⟨"A", "x", [("k", Value.vStr "old")], some 40⟩], 9⟩).1.records.map
        Record.expires_at ≠ [some 40]) := by decide

/-- C10 amended: for an existing record with non-null `expires_at`,
upserting the same id with falsy/zero ttl replaces payload and namespace
but keeps the record's previous `expires_at`, PROVIDED the purge sweep of
that very upsert does not remove the record first — i.e. when the counter
is below threshold or the record is not yet expired; otherwise the sweep
deletes it and the write re-creates it with no expiry. -/
theorem upsert_falsy_ttl_keeps_old_expiry (name : String) (now : Int)
    (payload : Payload) (db : DB) (r : Record) (t : Int)
    (hmem : r ∈ db.records) (ht : r.expires_at = some t)
    (huniq : ∀ b ∈ db.records, b.id = r.id → b = r)
    (hsafe : db.upsert_count + 1 < PURGE_AFTER_UPSERT_EVERY ∨ isLive now r = true) :
    (upsert name now r.id payload 0 true db).2 = none ∧
    (⟨name, r.id, payload, some t⟩ : Record)
      ∈ (upsert name now r.id payload 0 true db).1.records ∧
    (∀ b ∈ (upsert name now r.id payload 0 true db).1.records, b.id = r.id →
      b = (⟨name, r.id, payload, some t⟩ : Record)) := by
  have hsaved : savedRecord name now 0 r payload
      = (⟨name, r.id, payload, some t⟩ : Record) := by
    simp [savedRecord, upsertExpiry, ht]
  by_cases hns : db.upsert_count + 1 < PURGE_AFTER_UPSERT_EVERY
  · have hu : upsert name now r.id payload 0 true db
        = (upsertBody name now r.id payload 0
            { db with upsert_count := db.upsert_count + 1 }, none) := by
      simp [upsert, purgeExpired, hns]
    obtain ⟨h1, h2, h3⟩ := upsertBody_replace_facts name now r.id payload 0
      { db with upsert_count := db.upsert_count + 1 } r hmem rfl huniq
    refine ⟨by rw [hu], by rw [hu]; exact hsaved ▸ h1, ?_⟩
    intro b hb hbid
    rw [hu] at hb
    exact hsaved ▸ h2 b hb hbid
  · have hlive : isLive now r = true := hsafe.resolve_left hns
    have hu : upsert name now r.id payload 0 true db
        = (upsertBody name now r.id payload 0
            ⟨db.records.filter (fun x => !sweepExpired now x), 0⟩, none) := by
      simp [upsert, purgeExpired, hns]
    have hmem2 : r ∈ db.records.filter (fun x => !sweepExpired now x) :=
      List.mem_filter.mpr ⟨hmem, by simp [sweepExpired_eq_false_of_isLive now r hlive]⟩
    have huniq2 : ∀ b ∈ db.records.filter (fun x => !sweepExpired now x),
        b.id = r.id → b = r :=
      fun b hb => huniq b (List.mem_filter.mp hb).1
    obtain ⟨h1, h2, h3⟩ := upsertBody_replace_facts name now r.id payload 0
      ⟨db.records.filter (fun x => !sweepExpired now x), 0⟩ r hmem2 rfl huniq2
    refine ⟨by rw [hu], by rw [hu]; exact hsaved ▸ h1, ?_⟩
    intro b hb hbid
    rw [hu] at hb
    exact hsaved ▸ h2 b hb hbid

/-- Witness for the amended C10 at concrete inputs: the tenth upsert (sweep
due) of id "x" with falsy ttl, where the record is still live, keeps the
old expiry 100 while overwriting payload and namespace. -/
theorem upsert_falsy_ttl_keeps_old_expiry_witness :
    (upsert "B" 50 "x" [("k", Value.vStr "new")] 0 true
      ⟨[⟨"A", "x", [("k", Value.vStr "old")], some 100⟩], 9⟩).2 = none ∧
    (⟨"B", "x", [("k", Value.vStr "new")], some 100⟩ : Record)
      ∈ (upsert "B" 50 "x" [("k", Value.vStr "new")] 0 true
          ⟨[⟨"A", "x", [("k", Value.vStr "old")], some 100⟩], 9⟩).1.records :=
  ⟨(upsert_falsy_ttl_keeps_old_expiry "B" 50 [("k", Value.vStr "new")]
      ⟨[⟨"A", "x", [("k", Value.vStr "old")], some 100⟩], 9⟩
      ⟨"A", "x", [("k", Value.vStr "old")], some 100⟩ 100
      (by simp) rfl (by decide) (Or.inr (by decide))).1,
   (upsert_falsy_ttl_keeps_old_expiry "B" 50 [("k", Value.vStr "new")]
      ⟨[⟨"A", "x", [("k", Value.vStr "old")], some 100⟩], 9⟩
      ⟨"A", "x", [("k", Value.vStr "old")], some 100⟩ 100
      (by simp) rfl (by decide) (Or.inr (by decide))).2.1⟩

/-! ## C2: purge cadence -/

/-- C2: every upsert bumps the one process-wide counter (independent of the
adapter instance's namespace, as the last-but-two conjunct states); below
the threshold (10) the counter just increments and no record — expired or
not — other than the written id is touched; at the threshold the counter
resets to zero and one bulk delete removes, across all namespaces, exactly
the records whose `expires_at` is non-null and `≤ now`, so after that
upsert no record already past its expiry at sweep time survives; and before
the sweep such a record, though physically present, is returned by none of
the three reads. -/
theorem purge_cadence (name name2 : String) (now : Int) (id : String)
    (payload : Payload) (expiresIn : Nat) (db : DB) :
    PURGE_AFTER_UPSERT_EVERY = 10 ∧
    (∀ r : Record, sweepExpired now r = true ↔ ∃ t, r.expires_at = some t ∧ t ≤ now) ∧
    (db.upsert_count + 1 < PURGE_AFTER_UPSERT_EVERY →
      (upsert name now id payload expiresIn true db).1.upsert_count
        = db.upsert_count + 1 ∧
      (∀ r ∈ db.records, r.id ≠ id →
        r ∈ (upsert name now id payload expiresIn true db).1.records)) ∧
    (¬ db.upsert_count + 1 < PURGE_AFTER_UPSERT_EVERY →
      (upsert name now id payload expiresIn true db).1.upsert_count = 0 ∧
      (purgeExpired now true db).1.records
        = db.records.filter (fun r => !sweepExpired now r) ∧
      (∀ r ∈ db.records, sweepExpired now r = true →
        r ∉ (upsert name now id payload expiresIn true db).1.records)) ∧
    ((upsert name2 now id payload expiresIn true db).1.upsert_count
      = (upsert name now id payload expiresIn true db).1.upsert_count) ∧
    (∀ r ∈ db.records, sweepExpired now r = true →
      (∀ b ∈ db.records, b.id = r.id → b = r) → find now r.id db = none) ∧
    (∀ r ∈ db.records, ∀ u, getStr r.data "uid" = some u →
      sweepExpired now r = true →
      (∀ b ∈ db.records, getStr b.data "uid" = some u → b = r) →
      findByUid now u db = none) ∧
    (∀ r ∈ db.records, ∀ c, getStr r.data "userCode" = some c →
      sweepExpired now r = true →
      (∀ b ∈ db.records, getStr b.data "userCode" = some c → b = r) →
      findByUserCode now c db = none) := by
  refine ⟨rfl, ?_, ?_, ?_, ?_, ?_, ?_, ?_⟩
  · intro r
    cases he : r.expires_at <;> simp [sweepExpired, he]
  · intro hns
    have hu : upsert name now id payload expiresIn true db
        = (upsertBody name now id payload expiresIn
            { db with upsert_count := db.upsert_count + 1 }, none) := by
      simp [upsert, purgeExpired, hns]
    constructor
    · rw [hu]
      exact upsertBody_upsert_count name now id payload expiresIn _
    · intro r hr hrid
      rw [hu]
      exact upsertBody_preserves_other_ids name now id payload expiresIn
        { db with upsert_count := db.upsert_count + 1 } r hr hrid
  · intro hns
    have hu : upsert name now id payload expiresIn true db
        = (upsertBody name now id payload expiresIn
            ⟨db.records.filter (fun x => !sweepExpired now x), 0⟩, none) := by
      simp [upsert, purgeExpired, hns]
    refine ⟨by rw [hu]; exact upsertBody_upsert_count name now id payload expiresIn _,
      by simp [purgeExpired, hns], ?_⟩
    intro r hr hexp hin
    rw [hu] at hin
    have hall : ∀ x ∈ db.records.filter (fun x => !sweepExpired now x),
        sweepExpired now x = false :=
      fun x hx => by simpa using (List.mem_filter.mp hx).2
    have hfalse := upsertBody_preserves_no_expired name now id payload expiresIn
      ⟨db.records.filter (fun x => !sweepExpired now x), 0⟩ hall r hin
    rw [hfalse] at hexp
    exact Bool.noConfusion hexp
  · by_cases hns : db.upsert_count + 1 < PURGE_AFTER_UPSERT_EVERY
    · have hu1 : upsert name now id payload expiresIn true db
          = (upsertBody name now id payload expiresIn
              { db with upsert_count := db.upsert_count + 1 }, none) := by
        simp [upsert, purgeExpired, hns]
      have hu2 : upsert name2 now id payload expiresIn true db
          = (upsertBody name2 now id payload expiresIn
              { db with upsert_count := db.upsert_count + 1 }, none) := by
        simp [upsert, purgeExpired, hns]
      rw [hu1, hu2, upsertBody_upsert_count, upsertBody_upsert_count]
    · have hu1 : upsert name now id payload expiresIn true db
          = (upsertBody name now id payload expiresIn
              ⟨db.records.filter (fun x => !sweepExpired now x), 0⟩, none) := by
        simp [upsert, purgeExpired, hns]
      have hu2 : upsert name2 now id payload expiresIn true db
          = (upsertBody name2 now id payload expiresIn
              ⟨db.records.filter (fun x => !sweepExpired now x), 0⟩, none) := by
        simp [upsert, purgeExpired, hns]
      rw [hu1, hu2, upsertBody_upsert_count, upsertBody_upsert_count]
  · intro r hr hexp honly
    have h := live_find?_eq_none now (fun x => decide (x.id = r.id)) r db.records
      (isLive_eq_false_of_sweepExpired now r hexp)
      (fun b hb hkb => honly b hb (by simpa using hkb))
    simp [find, h]
  · intro r hr u hu hexp honly
    have h := live_find?_eq_none now
      (fun x => decide (getStr x.data "uid" = some u)) r db.records
      (isLive_eq_false_of_sweepExpired now r hexp)
      (fun b hb hkb => honly b hb (by simpa using hkb))
    simp [findByUid, h]
  · intro r hr c hc hexp honly
    have h := live_find?_eq_none now
      (fun x => decide (getStr x.data "userCode" = some c)) r db.records
      (isLive_eq_false_of_sweepExpired now r hexp)
      (fun b hb hkb => honly b hb (by simpa using hkb))
    simp [findByUserCode, h]

/-- Witness for C2 at concrete inputs: with an expired record (expiry 10,
time 50) stored, an upsert of another id at counter 0 just bumps the
counter to 1 and leaves the expired record physically present though
invisible to all three reads, while the same upsert at counter 9 resets the
counter and removes the expired record. -/
theorem purge_cadence_witness :
    (upsert "S" 50 "n" [] 5 true
      ⟨[⟨"S", "e", [("uid", Value.vStr "u"), ("userCode", Value.vStr "uc")], some 10⟩], 0⟩).1.upsert_count = 1 ∧
    (⟨"S", "e", [("uid", Value.vStr "u"), ("userCode", Value.vStr "uc")], some 10⟩ : Record)
      ∈ (upsert "S" 50 "n" [] 5 true
        ⟨[⟨"S", "e", [("uid", Value.vStr "u"), ("userCode", Value.vStr "uc")], some 10⟩], 0⟩).1.records ∧
    (upsert "S" 50 "n" [] 5 true
      ⟨[⟨"S", "e", [("uid", Value.vStr "u"), ("userCode", Value.vStr "uc")], some 10⟩], 9⟩).1.upsert_count = 0 ∧
    (⟨"S", "e", [("uid", Value.vStr "u"), ("userCode", Value.vStr "uc")], some 10⟩ : Record)
      ∉ (upsert "S" 50 "n" [] 5 true
        ⟨[⟨"S", "e", [("uid", Value.vStr "u"), ("userCode", Value.vStr "uc")], some 10⟩], 9⟩).1.records ∧
    find 50 "e"
      ⟨[⟨"S", "e", [("uid", Value.vStr "u"), ("userCode", Value.vStr "uc")], some 10⟩], 9⟩ = none ∧
    findByUid 50 "u"
      ⟨[⟨"S", "e", [("uid", Value.vStr "u"), ("userCode", Value.vStr "uc")], some 10⟩], 9⟩ = none ∧
    findByUserCode 50 "uc"
      ⟨[⟨"S", "e", [("uid", Value.vStr "u"), ("userCode", Value.vStr "uc")], some 10⟩], 9⟩ = none :=
  ⟨((purge_cadence "S" "T" 50 "n" [] 5
      ⟨[⟨"S", "e", [("uid", Value.vStr "u"), ("userCode", Value.vStr "uc")], some 10⟩], 0⟩).2.2.1
      (by decide)).1,
   ((purge_cadence "S" "T" 50 "n" [] 5
      ⟨[⟨"S", "e", [("uid", Value.vStr "u"), ("userCode", Value.vStr "uc")], some 10⟩], 0⟩).2.2.1
      (by decide)).2
      ⟨"S", "e", [("uid", Value.vStr "u"), ("userCode", Value.vStr "uc")], some 10⟩
      (by simp) (by decide),
   ((purge_cadence "S" "T" 50 "n" [] 5
      ⟨[⟨"S", "e", [("uid", Value.vStr "u"), ("userCode", Value.vStr "uc")], some 10⟩], 9⟩).2.2.2.1
      (by decide)).1,
   ((purge_cadence "S" "T" 50 "n" [] 5
      ⟨[⟨"S", "e", [("uid", Value.vStr "u"), ("userCode", Value.vStr "uc")], some 10⟩], 9⟩).2.2.2.1
      (by decide)).2.2
      ⟨"S", "e", [("uid", Value.vStr "u"), ("userCode", Value.vStr "uc")], some 10⟩
      (by simp) (by decide),
   (purge_cadence "S" "T" 50 "n" [] 5
      ⟨[⟨"S", "e", [("uid", Value.vStr "u"), ("userCode", Value.vStr "uc")], some 10⟩], 9⟩).2.2.2.2.2.1
      ⟨"S", "e", [("uid", Value.vStr "u"), ("userCode", Value.vStr "uc")], some 10⟩
      (by simp) (by decide) (by decide),
   (purge_cadence "S" "T" 50 "n" [] 5
      ⟨[⟨"S", "e", [("uid", Value.vStr "u"), ("userCode", Value.vStr "uc")], some 10⟩], 9⟩).2.2.2.2.2.2.1
      ⟨"S", "e", [("uid", Value.vStr "u"), ("userCode", Value.vStr "uc")], some 10⟩
      (by simp) "u" (by decide) (by decide) (by decide),
   (purge_cadence "S" "T" 50 "n" [] 5
      ⟨[⟨"S", "e", [("uid", Value.vStr "u"), ("userCode", Value.vStr "uc")], some 10⟩], 9⟩).2.2.2.2.2.2.2
      ⟨"S", "e", [("uid", Value.vStr "u"), ("userCode", Value.vStr "uc")], some 10⟩
      (by simp) "uc" (by decide) (by decide) (by decide)⟩
